import Mathlib

/-!
Shallow embedding of the hectec expenses page (src/app/expenses/page.tsx),
the site configuration (src/config/site.ts) and the side navigation link
list. JavaScript runtime values manipulated by the page are modelled by
the inductive type JsValue; the JavaScript builtin string and number
operations the page uses are modelled by executable Lean functions.
-/

namespace Hectec

/-- JavaScript values appearing in the expenses page: null, undefined,
booleans, numbers (the fixture holds integral amounts, modelled as Int),
strings, and Date objects (a Date is represented by its ISO string, the
value its toISOString method returns). -/
inductive JsValue where
  | vNull
  | vUndefined
  | vBool (b : Bool)
  | vNum (n : Int)
  | vStr (s : String)
  | vDate (iso : String)
  deriving DecidableEq

/-- Model of the JavaScript String.split method with a one-character
separator, on character lists: the segments between occurrences of the
separator. -/
def splitChar (sep : Char) : List Char → List (List Char)
  | [] => [[]]
  | c :: cs =>
    if c = sep then [] :: splitChar sep cs
    else
      match splitChar sep cs with
      | [] => [[c]]
      | g :: gs => (c :: g) :: gs

/-- Model of the JavaScript expression s.split(sep)[0]: the first segment
of the split. -/
def splitHead (sep : Char) (s : String) : String :=
  String.mk ((splitChar sep s.toList).headD [])

/-- Model of the JavaScript String.trim method: drop whitespace from both
ends of the string. -/
def jsTrim (s : String) : String :=
  String.mk
    (((s.toList.dropWhile Char.isWhitespace).reverse.dropWhile Char.isWhitespace).reverse)

/-- Helper for locale grouping. The input is the digit list written least
significant digit first; a comma is inserted at every third digit
boundary. -/
def groupAux : Nat → List Char → List Char
  | _, [] => []
  | i, c :: cs =>
    if i ≠ 0 ∧ i % 3 = 0 then ',' :: c :: groupAux (i + 1) cs
    else c :: groupAux (i + 1) cs

/-- Model of the JavaScript Number.prototype.toLocaleString method for
integral values in the en-US default locale: decimal digits grouped in
threes, separated by commas, with a leading minus sign for negative
numbers. -/
def jsToLocaleString (n : Int) : String :=
  let digits := (Nat.repr n.natAbs).toList
  let grouped := String.mk ((groupAux 0 digits.reverse).reverse)
  if n < 0 then "-" ++ grouped else grouped

/-- Model of the JavaScript toString coercion for the values above; the
page only reaches it for values that are not dates, numbers, strings,
null or undefined (in this model: booleans). -/
def jsToString : JsValue → String
  | .vNull => "null"
  | .vUndefined => "undefined"
  | .vBool b => if b then "true" else "false"
  | .vNum n => toString n
  | .vStr s => s
  | .vDate iso => iso

/-- Embedding of prettyPrint (src/app/expenses/page.tsx lines 20-32):
dates map to the first segment of the ISO string split at the letter T;
numbers to toLocaleString; strings to trim; null and undefined to a dash;
every other value to its toString result. -/
def prettyPrint : JsValue → String
  | .vDate iso => splitHead 'T' iso
  | .vNum n => jsToLocaleString n
  | .vStr s => jsTrim s
  | .vNull => "-"
  | .vUndefined => "-"
  | .vBool b => jsToString (.vBool b)

/-- A fixture record (one element of transactions.json): a JavaScript
object, modelled as its key-value pairs in insertion order. -/
abbrev RawTxn := List (String × JsValue)

/-- The fixture: the array parsed from transactions.json. -/
abbrev Fixture := List RawTxn

/-- The raw date string of a fixture record: the value stored under its
date key (in the fixture every record carries a string there). -/
def rawDateStr (r : RawTxn) : String :=
  match r.lookup "date" with
  | some (.vStr s) => s
  | _ => ""

/-- A derived transaction row, the result of the reshape step
(src/app/expenses/page.tsx lines 42-48): a synthetic key, the parsed date
(a Date object, represented by its timestamp as produced by an abstract
model of new Date(s).getTime()), and the remaining key-value pairs of the
record. -/
structure Txn where
  key : Nat
  dateMs : Int
  fields : List (String × JsValue)
  deriving DecidableEq, Inhabited

/-- Reshape step of the pipeline: the spread of the fixture record with a
synthetic key equal to its index and the date string replaced by the
parsed Date. -/
def reshape (getTime : String → Int) (i : Nat) (r : RawTxn) : Txn :=
  { key := i
  , dateMs := getTime (rawDateStr r)
  , fields := r.filter (fun kv => kv.1 ≠ "date") }

/-- The reshaped fixture in fixture order: transactionsData.map with the
array index as the synthetic key. -/
def reshapeAll (getTime : String → Int) (f : Fixture) : List Txn :=
  f.enum.map (fun p => reshape getTime p.1 p.2)

/-- Comparator of the sort in the pipeline, ascending date timestamps
(the JavaScript comparator a.date.getTime() - b.date.getTime()). -/
def dateLe (a b : Txn) : Prop := a.dateMs ≤ b.dateMs

/-- Descending date order, for statements about the reversed list. -/
def dateGe (a b : Txn) : Prop := b.dateMs ≤ a.dateMs

instance : DecidableRel dateLe :=
  fun a b => inferInstanceAs (Decidable (a.dateMs ≤ b.dateMs))

instance : DecidableRel dateGe :=
  fun a b => inferInstanceAs (Decidable (b.dateMs ≤ a.dateMs))

instance : IsTotal Txn dateLe := ⟨fun a b => Int.le_total a.dateMs b.dateMs⟩

instance : IsTrans Txn dateLe := ⟨fun _ _ _ => Int.le_trans⟩

/-- Embedding of the transactions constant (src/app/expenses/page.tsx
lines 42-48): reshape the fixture with the index as synthetic key, then
sort ascending by date timestamp. JavaScript Array.prototype.sort is
stable; it is modelled by the stable insertion sort. -/
def transactions (getTime : String → Int) (f : Fixture) : List Txn :=
  List.insertionSort dateLe (reshapeAll getTime f)

/-- Errors thrown by the JavaScript runtime in the embedded code. -/
inductive JsError where
  | referenceError (name : String)
  | typeError (msg : String)
  deriving DecidableEq

/-- Embedding of the columns constant (src/app/expenses/page.tsx lines
50-53): Object.keys of the first fixture record with upper-cased labels.
On the empty fixture the first record is undefined and Object.keys throws
a TypeError. -/
def columns (f : Fixture) : Except JsError (List (String × String)) :=
  match f with
  | [] => .error (.typeError "cannot convert undefined or null to object")
  | r :: _ => .ok (r.map (fun kv => (kv.1, String.mk (kv.1.toList.map Char.toUpper))))

/-- The PAGE_SIZE constant of the page. -/
def PAGE_SIZE : Nat := 10

/-- Embedding of numPages = Math.ceil(transactionsData.length / PAGE_SIZE). -/
def numPages (f : Fixture) : Nat := (f.length + PAGE_SIZE - 1) / PAGE_SIZE

/-- Embedding of hasMore = page < numPages. -/
def hasMore (f : Fixture) (page : Nat) : Bool := page < numPages f

/-- The date-descending ordering transactions.reverse(), the array the
load callback slices. The component body recomputes transactions from the
fixture on each render and every load triggers a re-render through its
page update, so each call of load reverses a freshly sorted copy. -/
def descOrder (getTime : String → Int) (f : Fixture) : List Txn :=
  (transactions getTime f).reverse

/-- Result of one call of the load callback. -/
structure LoadResult where
  items : List Txn
  cursor : Nat
  deriving DecidableEq

/-- Embedding of the load callback of useAsyncList
(src/app/expenses/page.tsx lines 55-65): start = cursor ?? 0, items =
transactions.reverse().slice(start, start + PAGE_SIZE), and the returned
cursor is start + PAGE_SIZE. -/
def load (getTime : String → Int) (f : Fixture) (cursor : Option Nat) : LoadResult :=
  let start := cursor.getD 0
  { items := ((descOrder getTime f).drop start).take PAGE_SIZE
  , cursor := start + PAGE_SIZE }

/-- State of a paging session: the page counter (React state, initially 1
and incremented by every load), the cursor for the next load (none before
the initial load), and the concatenation of all item lists returned so
far. -/
structure SessionState where
  page : Nat
  nextCursor : Option Nat
  returned : List Txn
  deriving DecidableEq

/-- Session state before the initial load. -/
def initialState : SessionState :=
  { page := 1, nextCursor := none, returned := [] }

/-- One invocation of the load callback: run load at the session cursor,
increment the page counter, remember the returned cursor and items. -/
def doLoad (getTime : String → Int) (f : Fixture) (s : SessionState) : SessionState :=
  let r := load getTime f s.nextCursor
  { page := s.page + 1, nextCursor := some r.cursor, returned := s.returned ++ r.items }

/-- Press Load More for as long as the button is offered (hasMore is
true). The fuel bounds the number of presses; any fuel of at least
numPages f runs the loop to quiescence because the page counter grows on
every load. -/
def loadWhileMore (getTime : String → Int) (f : Fixture) : Nat → SessionState → SessionState
  | 0, s => s
  | Nat.succ fuel, s =>
    if hasMore f s.page then loadWhileMore getTime f fuel (doLoad getTime f s) else s

/-- A full session: the initial load performed by useAsyncList on mount,
then Load More for as long as it is offered. -/
def sessionRun (getTime : String → Int) (f : Fixture) : SessionState :=
  loadWhileMore getTime f (numPages f) (doLoad getTime f initialState)

/-- Embedding of createNewTransaction (src/app/expenses/page.tsx lines
68-76). The function aliases the last element of transactions, overwrites
every field of that record with the empty string, sets its key to the old
length and its date to the date of the first record, pushes the aliased
record, reverses the array, and then evaluates the undeclared name start,
which raises a ReferenceError. On an empty list the indexing yields
undefined and Object.keys throws a TypeError first. The result is the
final array state together with the outcome; the items assignment never
executes. (For a singleton list the date written back is the just blanked
empty string rather than a timestamp; the timestamp model keeps the first
record date there, a corner no property below depends on.) -/
def createNewTransaction (ts : List Txn) : List Txn × Except JsError Unit :=
  match ts with
  | [] => ([], .error (.typeError "cannot convert undefined or null to object"))
  | t0 :: _ =>
    let n := ts.length
    let last := ts.getLastD default
    let blanked : Txn :=
      { key := n
      , dateMs := t0.dateMs
      , fields := last.fields.map (fun kv => (kv.1, JsValue.vStr "")) }
    (((ts.set (n - 1) blanked) ++ [blanked]).reverse, .error (.referenceError "start"))

/-- A navigation entry: a visible label and a path. -/
structure NavItem where
  label : String
  href : String
  deriving DecidableEq

/-- Embedding of siteConfig.navItems (src/config/site.ts lines 6-23). -/
def navItems : List NavItem :=
  [ { label := "Home", href := "/" }
  , { label := "Expenses", href := "/expenses" }
  , { label := "Summary", href := "/summary" }
  , { label := "Configure", href := "/configure" } ]

/-- Embedding of the links array of the side navigation component (icon
components are not modelled; the name property is the label). -/
def sideNavLinks : List NavItem :=
  [ { label := "Expenses", href := "/expenses" }
  , { label := "Summary", href := "/summary" }
  , { label := "Configure", href := "/configure" } ]

/-- Main navigation items as the specification words them, label and
path, in order. -/
def specNavItems : List (String × String) :=
  [("Home", "/"), ("Expenses", "/expenses"), ("Summary", "/summary"),
   ("Configure", "/configure")]

/-- Side navigation paths as the specification words them. -/
def specSideNavPaths : List String :=
  ["/expenses", "/summary", "/configure"]

/-- ISO day part as the specification words it: the substring of the ISO
string before the letter T. -/
def isoDayPart (iso : String) : String :=
  String.mk (iso.toList.takeWhile (fun c => c ≠ 'T'))

/-- Timestamp model used on concrete fixtures below: the length of the
raw date string. -/
def lenTime (s : String) : Int := s.length

/-- A concrete fixture with eleven records carrying pairwise distinct
dates. -/
def fixtureEleven : Fixture :=
  (List.range 11).map
    (fun i => [("date", JsValue.vStr (String.mk (List.replicate i 'd'))),
               ("amount", JsValue.vNum i)])

/-- A concrete fixture with two records. -/
def fixtureTwo : Fixture :=
  [ [("date", JsValue.vStr "a"), ("amount", JsValue.vNum 5)]
  , [("date", JsValue.vStr "ab"), ("amount", JsValue.vNum 7)] ]


/-! Helper lemmas shared by the claim theorems. -/

lemma splitChar_ne_nil (sep : Char) (l : List Char) : splitChar sep l ≠ [] := by
  induction l with
  | nil => simp [splitChar]
  | cons c cs ih =>
    by_cases h : c = sep
    · simp [splitChar, h]
    · simp only [splitChar, if_neg h]
      cases hs : splitChar sep cs with
      | nil => simp
      | cons g gs => simp

lemma splitChar_headD (sep : Char) (l : List Char) :
    (splitChar sep l).headD [] = l.takeWhile (fun c => c ≠ sep) := by
  induction l with
  | nil => rfl
  | cons c cs ih =>
    by_cases h : c = sep
    · simp [splitChar, h, List.takeWhile_cons]
    · simp only [splitChar, if_neg h]
      cases hs : splitChar sep cs with
      | nil => exact absurd hs (splitChar_ne_nil sep cs)
      | cons g gs =>
        rw [hs] at ih
        simp only [List.headD_cons] at ih
        simp only [ne_eq, decide_not] at ih
        simp [List.takeWhile_cons, h, ← ih]

lemma head?_dropWhile_not (p : Char → Bool) (l : List Char) :
    ∀ x, (l.dropWhile p).head? = some x → p x = false := by
  induction l with
  | nil => intro x hx; simp at hx
  | cons c cs ih =>
    intro x hx
    rw [List.dropWhile_cons] at hx
    by_cases h : p c
    · rw [if_pos h] at hx
      exact ih x hx
    · rw [if_neg h] at hx
      simp only [List.head?_cons, Option.some.injEq] at hx
      rw [← hx]
      exact Bool.eq_false_iff.mpr h

lemma getLast?_dropWhile_of_ne_nil (p : Char → Bool) (l : List Char)
    (h : l.dropWhile p ≠ []) : (l.dropWhile p).getLast? = l.getLast? := by
  induction l with
  | nil => simp at h
  | cons c cs ih =>
    rw [List.dropWhile_cons] at h ⊢
    by_cases hp : p c
    · rw [if_pos hp] at h ⊢
      cases cs with
      | nil => simp [List.dropWhile] at h
      | cons c2 cs2 =>
        rw [List.getLast?_cons_cons]
        exact ih h
    · rw [if_neg hp]

lemma map_key_reshapeAll (getTime : String → Int) (f : Fixture) :
    (reshapeAll getTime f).map Txn.key = List.range f.length := by
  unfold reshapeAll
  rw [List.map_map]
  exact List.enum_map_fst f

lemma transactions_perm (getTime : String → Int) (f : Fixture) :
    (transactions getTime f).Perm (reshapeAll getTime f) :=
  List.perm_insertionSort dateLe (reshapeAll getTime f)

lemma sorted_transactions (getTime : String → Int) (f : Fixture) :
    List.Sorted dateLe (transactions getTime f) :=
  List.sorted_insertionSort dateLe (reshapeAll getTime f)

lemma transactions_nodup (getTime : String → Int) (f : Fixture) :
    (transactions getTime f).Nodup := by
  have h := (transactions_perm getTime f).map Txn.key
  rw [map_key_reshapeAll] at h
  exact List.Nodup.of_map Txn.key (h.nodup_iff.mpr (List.nodup_range f.length))

lemma sorted_descOrder (getTime : String → Int) (f : Fixture) :
    List.Sorted dateGe (descOrder getTime f) := by
  have h := sorted_transactions getTime f
  unfold descOrder
  rw [List.Sorted] at h ⊢
  rw [List.pairwise_reverse]
  exact h

lemma descOrder_nodup (getTime : String → Int) (f : Fixture) :
    (descOrder getTime f).Nodup :=
  List.nodup_reverse.mpr (transactions_nodup getTime f)

lemma descOrder_length (getTime : String → Int) (f : Fixture) :
    (descOrder getTime f).length = f.length := by
  unfold descOrder
  rw [List.length_reverse, (transactions_perm getTime f).length_eq]
  unfold reshapeAll
  rw [List.length_map, List.enum_length]

/-- C1: pagination is a slice of one fixed date-descending ordering: load
at cursor 10k returns positions 10k to 10k+10 of the reversed sorted
list, that list is date-descending, the initial call (no cursor) equals
the cursor 0 call, and the cursor 0 and cursor 10 pages are disjoint and
together are the first 20 records of that ordering. -/
theorem c1_pagination_fixed_ordering (getTime : String → Int) (f : Fixture) (k : Nat) :
    (load getTime f (some (PAGE_SIZE * k))).items
      = ((descOrder getTime f).drop (PAGE_SIZE * k)).take PAGE_SIZE
    ∧ List.Sorted dateGe (descOrder getTime f)
    ∧ load getTime f none = load getTime f (some 0)
    ∧ List.Disjoint (load getTime f (some 0)).items (load getTime f (some PAGE_SIZE)).items
    ∧ (load getTime f (some 0)).items ++ (load getTime f (some PAGE_SIZE)).items
      = (descOrder getTime f).take (PAGE_SIZE + PAGE_SIZE) := by
  refine ⟨rfl, sorted_descOrder getTime f, rfl, ?_, ?_⟩
  · show List.Disjoint (((descOrder getTime f).drop 0).take PAGE_SIZE)
      (((descOrder getTime f).drop PAGE_SIZE).take PAGE_SIZE)
    rw [List.drop_zero]
    exact List.disjoint_of_subset_right (List.take_subset _ _)
      (List.disjoint_take_drop (descOrder_nodup getTime f) le_rfl)
  · show ((descOrder getTime f).drop 0).take PAGE_SIZE
      ++ ((descOrder getTime f).drop PAGE_SIZE).take PAGE_SIZE
      = (descOrder getTime f).take (PAGE_SIZE + PAGE_SIZE)
    rw [List.drop_zero, ← List.take_add]

/-- C1 witness at a concrete eleven record fixture and k = 1. -/
theorem c1_witness :
    (load lenTime fixtureEleven (some (PAGE_SIZE * 1))).items
      = ((descOrder lenTime fixtureEleven).drop (PAGE_SIZE * 1)).take PAGE_SIZE
    ∧ List.Sorted dateGe (descOrder lenTime fixtureEleven)
    ∧ load lenTime fixtureEleven none = load lenTime fixtureEleven (some 0)
    ∧ List.Disjoint (load lenTime fixtureEleven (some 0)).items
        (load lenTime fixtureEleven (some PAGE_SIZE)).items
    ∧ (load lenTime fixtureEleven (some 0)).items
        ++ (load lenTime fixtureEleven (some PAGE_SIZE)).items
      = (descOrder lenTime fixtureEleven).take (PAGE_SIZE + PAGE_SIZE) :=
  c1_pagination_fixed_ordering lenTime fixtureEleven 1


/-- C2 (code bug): on an eleven record fixture the claim fails. The
initial load moves the page counter from 1 to 2 while numPages is 2, so
hasMore is already false and Load More is never offered; the session
returns 10 of the 11 records and stops. -/
theorem c2_load_more_starves :
    fixtureEleven.length = 11
    ∧ numPages fixtureEleven = 2
    ∧ (doLoad lenTime fixtureEleven initialState).page = 2
    ∧ hasMore fixtureEleven (doLoad lenTime fixtureEleven initialState).page = false
    ∧ (sessionRun lenTime fixtureEleven).returned.length = 10 := by decide

/-- C3 counterexample: on a concrete two record fixture,
createNewTransaction overwrites the field values of the last derived
record; afterwards no record in the array still carries its original
amount value 7, so field values of a loaded record were modified. -/
theorem c3_counterexample :
    ((transactions lenTime fixtureTwo).getLastD default).fields
      = [("amount", JsValue.vNum 7)]
    ∧ ∀ t ∈ (createNewTransaction (transactions lenTime fixtureTwo)).1,
        t.fields ≠ [("amount", JsValue.vNum 7)] := by decide

/-- C3 (amended): the load path returns records of the derived list
unmodified, but createNewTransaction is a write path: on any nonempty
transactions list it raises its ReferenceError only after overwriting
every field value of the last record with the empty string. -/
theorem c3_amended_immutability (getTime : String → Int) (f : Fixture) (c : Option Nat)
    (ts : List Txn) (h : ts ≠ []) :
    (∀ t ∈ (load getTime f c).items, t ∈ transactions getTime f)
    ∧ (createNewTransaction ts).2 = Except.error (JsError.referenceError "start")
    ∧ ∃ t ∈ (createNewTransaction ts).1,
        t.fields = (ts.getLastD default).fields.map (fun kv => (kv.1, JsValue.vStr "")) := by
  refine ⟨?_, ?_, ?_⟩
  · intro t ht
    have ht2 : t ∈ ((descOrder getTime f).drop ((c.getD 0))).take PAGE_SIZE := ht
    exact List.mem_reverse.mp (List.drop_subset _ _ (List.take_subset _ _ ht2))
  · cases ts with
    | nil => exact absurd rfl h
    | cons t0 rest => rfl
  · cases ts with
    | nil => exact absurd rfl h
    | cons t0 rest =>
      refine ⟨{ key := (t0 :: rest).length
              , dateMs := t0.dateMs
              , fields := ((t0 :: rest).getLastD default).fields.map
                  (fun kv => (kv.1, JsValue.vStr "")) }, ?_, rfl⟩
      simp only [createNewTransaction, List.mem_reverse, List.mem_append]
      right
      simp

/-- C3 witness at a concrete two record fixture. -/
theorem c3_witness :
    transactions lenTime fixtureTwo ≠ []
    ∧ ((∀ t ∈ (load lenTime fixtureTwo none).items, t ∈ transactions lenTime fixtureTwo)
      ∧ (createNewTransaction (transactions lenTime fixtureTwo)).2
          = Except.error (JsError.referenceError "start")
      ∧ ∃ t ∈ (createNewTransaction (transactions lenTime fixtureTwo)).1,
          t.fields = ((transactions lenTime fixtureTwo).getLastD default).fields.map
            (fun kv => (kv.1, JsValue.vStr ""))) :=
  ⟨by decide, c3_amended_immutability lenTime fixtureTwo none
    (transactions lenTime fixtureTwo) (by decide)⟩

/-- C4 counterexample: on the empty fixture the column computation does
not succeed; Object.keys of the undefined first record throws. -/
theorem c4_counterexample : (columns ([] : Fixture)).isOk = false := rfl

/-- C4 (amended): on every nonempty fixture the column computation
succeeds, and the derived transactions list is total, returning one
derived record per fixture record; only the empty fixture makes the
column computation throw. -/
theorem c4_amended_no_failure (getTime : String → Int) (f : Fixture) (h : f ≠ []) :
    (columns f).isOk = true ∧ (transactions getTime f).length = f.length := by
  constructor
  · cases f with
    | nil => exact absurd rfl h
    | cons r rest => rfl
  · rw [(transactions_perm getTime f).length_eq]
    unfold reshapeAll
    rw [List.length_map, List.enum_length]

/-- C4 witness at a concrete two record fixture. -/
theorem c4_witness :
    fixtureTwo ≠ [] ∧ ((columns fixtureTwo).isOk = true
      ∧ (transactions lenTime fixtureTwo).length = fixtureTwo.length) :=
  ⟨by decide, c4_amended_no_failure lenTime fixtureTwo (by decide)⟩

/-- C5: prettyPrint maps a Date to the part of its ISO string before the
letter T, a number to its locale grouped string, and null and undefined
to the dash placeholder. -/
theorem c5_cell_formatting (iso : String) (n : Int) :
    prettyPrint (JsValue.vDate iso) = isoDayPart iso
    ∧ prettyPrint (JsValue.vNum n) = jsToLocaleString n
    ∧ prettyPrint JsValue.vNull = "-"
    ∧ prettyPrint JsValue.vUndefined = "-" := by
  refine ⟨?_, rfl, rfl, rfl⟩
  show splitHead 'T' iso = isoDayPart iso
  unfold splitHead isoDayPart
  rw [splitChar_headD]

/-- C5 witness at concrete values. -/
theorem c5_witness :
    prettyPrint (JsValue.vDate "2024-01-02T10:00:00.000Z")
      = isoDayPart "2024-01-02T10:00:00.000Z"
    ∧ prettyPrint (JsValue.vNum 12345) = jsToLocaleString 12345
    ∧ prettyPrint JsValue.vNull = "-"
    ∧ prettyPrint JsValue.vUndefined = "-" :=
  c5_cell_formatting "2024-01-02T10:00:00.000Z" 12345

/-- C6: the derived transactions list is a permutation of the reshaped
fixture; every derived record carries a key equal to its index in the
original fixture, the parsed date of that fixture record and its
remaining fields; the keys are exactly the fixture indices; and the list
is ordered by non-decreasing date. -/
theorem c6_derived_list_shape (getTime : String → Int) (f : Fixture) :
    (transactions getTime f).Perm (reshapeAll getTime f)
    ∧ (∀ t ∈ transactions getTime f,
        t.key < f.length
        ∧ t.dateMs = getTime (rawDateStr (f.getD t.key []))
        ∧ t.fields = (f.getD t.key []).filter (fun kv => kv.1 ≠ "date"))
    ∧ ((transactions getTime f).map Txn.key).Perm (List.range f.length)
    ∧ List.Sorted dateLe (transactions getTime f) := by
  refine ⟨transactions_perm getTime f, ?_, ?_, sorted_transactions getTime f⟩
  · intro t ht
    have ht2 : t ∈ reshapeAll getTime f := ((transactions_perm getTime f).mem_iff).mp ht
    unfold reshapeAll at ht2
    rw [List.mem_map] at ht2
    obtain ⟨p, hp, hpt⟩ := ht2
    rw [List.mem_enum_iff_getElem?] at hp
    obtain ⟨hlt, hget⟩ := List.getElem?_eq_some.mp hp
    have hkey : t.key = p.1 := by rw [← hpt]; rfl
    have hgetD : f.getD t.key [] = p.2 := by
      rw [hkey, List.getD_eq_getElem?_getD, hp]; rfl
    refine ⟨?_, ?_, ?_⟩
    · rw [hkey]; exact hlt
    · rw [hgetD, ← hpt]; rfl
    · rw [hgetD, ← hpt]; rfl
  · have h := (transactions_perm getTime f).map Txn.key
    rw [map_key_reshapeAll] at h
    exact h

/-- C6 witness at a concrete two record fixture. -/
theorem c6_witness :
    (transactions lenTime fixtureTwo).Perm (reshapeAll lenTime fixtureTwo)
    ∧ (∀ t ∈ transactions lenTime fixtureTwo,
        t.key < fixtureTwo.length
        ∧ t.dateMs = lenTime (rawDateStr (fixtureTwo.getD t.key []))
        ∧ t.fields = (fixtureTwo.getD t.key []).filter (fun kv => kv.1 ≠ "date"))
    ∧ ((transactions lenTime fixtureTwo).map Txn.key).Perm (List.range fixtureTwo.length)
    ∧ List.Sorted dateLe (transactions lenTime fixtureTwo) :=
  c6_derived_list_shape lenTime fixtureTwo

/-- C7: on a fixture of at least ten records, the initial load (no
cursor) returns the first ten records of the date-descending ordering:
exactly ten records, ordered from most recent to least recent, and every
record left out has a date at most every returned date. -/
theorem c7_first_page_latest (getTime : String → Int) (f : Fixture)
    (h : PAGE_SIZE ≤ f.length) :
    (load getTime f none).items = (descOrder getTime f).take PAGE_SIZE
    ∧ (load getTime f none).items.length = PAGE_SIZE
    ∧ List.Sorted dateGe (load getTime f none).items
    ∧ (∀ t ∈ (load getTime f none).items,
        ∀ r ∈ (descOrder getTime f).drop PAGE_SIZE, dateGe t r) := by
  have hitems : (load getTime f none).items = (descOrder getTime f).take PAGE_SIZE := by
    show ((descOrder getTime f).drop 0).take PAGE_SIZE = _
    rw [List.drop_zero]
  refine ⟨hitems, ?_, ?_, ?_⟩
  · rw [hitems, List.length_take, descOrder_length, Nat.min_eq_left h]
  · rw [hitems]
    exact List.Pairwise.sublist (List.take_sublist _ _) (sorted_descOrder getTime f)
  · intro t ht r hr
    rw [hitems] at ht
    exact (sorted_descOrder getTime f).rel_of_mem_take_of_mem_drop ht hr

/-- C7 witness at a concrete eleven record fixture. -/
theorem c7_witness :
    PAGE_SIZE ≤ fixtureEleven.length
    ∧ ((load lenTime fixtureEleven none).items
        = (descOrder lenTime fixtureEleven).take PAGE_SIZE
      ∧ (load lenTime fixtureEleven none).items.length = PAGE_SIZE
      ∧ List.Sorted dateGe (load lenTime fixtureEleven none).items
      ∧ (∀ t ∈ (load lenTime fixtureEleven none).items,
          ∀ r ∈ (descOrder lenTime fixtureEleven).drop PAGE_SIZE, dateGe t r)) :=
  ⟨by decide, c7_first_page_latest lenTime fixtureEleven (by decide)⟩

/-- C8: the main navigation items are, in order, Home, Expenses, Summary
and Configure at their stated paths, and the side navigation links are
exactly the expenses, summary and configure paths. -/
theorem c8_route_paths :
    navItems.map (fun i => (i.label, i.href)) = specNavItems
    ∧ sideNavLinks.map NavItem.href = specSideNavPaths :=
  ⟨rfl, rfl⟩

/-- C9: createNewTransaction never completes. On every nonempty
transactions list its final assignment evaluates the undeclared name
start and raises a ReferenceError; on the empty list Object.keys of the
undefined last element raises a TypeError even earlier. In both cases no
new row is ever handed to the table. -/
theorem c9_create_new_transaction_errors (ts : List Txn) :
    (createNewTransaction ts).2
      = Except.error
          (if ts = [] then JsError.typeError "cannot convert undefined or null to object"
           else JsError.referenceError "start") := by
  cases ts with
  | nil => rfl
  | cons t0 rest => simp [createNewTransaction]

/-- C9 witness at a concrete state. -/
theorem c9_witness :
    (createNewTransaction (transactions lenTime fixtureTwo)).2
      = Except.error
          (if transactions lenTime fixtureTwo = []
           then JsError.typeError "cannot convert undefined or null to object"
           else JsError.referenceError "start") :=
  c9_create_new_transaction_errors (transactions lenTime fixtureTwo)

/-- C10: prettyPrint trims strings, leading and trailing whitespace is
removed and nothing else: the input splits as whitespace, the returned
string, whitespace, and the returned string neither starts nor ends with
whitespace; every remaining value kind is printed with its toString
result. -/
theorem c10_string_display (s : String) (bv : Bool) :
    prettyPrint (JsValue.vStr s) = jsTrim s
    ∧ (∃ pre post : List Char,
        s.toList = pre ++ ((jsTrim s).toList ++ post)
        ∧ (∀ c ∈ pre, c.isWhitespace = true)
        ∧ (∀ c ∈ post, c.isWhitespace = true))
    ∧ (∀ c, ((jsTrim s).toList.head? = some c → c.isWhitespace = false)
        ∧ ((jsTrim s).toList.getLast? = some c → c.isWhitespace = false))
    ∧ prettyPrint (JsValue.vBool bv) = jsToString (JsValue.vBool bv) := by
  have hcore : (jsTrim s).toList
      = ((s.toList.dropWhile Char.isWhitespace).reverse.dropWhile Char.isWhitespace).reverse :=
    rfl
  refine ⟨rfl, ?_, ?_, rfl⟩
  · refine ⟨s.toList.takeWhile Char.isWhitespace,
      ((s.toList.dropWhile Char.isWhitespace).reverse.takeWhile Char.isWhitespace).reverse,
      ?_, ?_, ?_⟩
    · rw [hcore]
      have h1 : s.toList
          = s.toList.takeWhile Char.isWhitespace ++ s.toList.dropWhile Char.isWhitespace :=
        (List.takeWhile_append_dropWhile Char.isWhitespace s.toList).symm
      have h2 : (s.toList.dropWhile Char.isWhitespace).reverse
          = (s.toList.dropWhile Char.isWhitespace).reverse.takeWhile Char.isWhitespace
            ++ (s.toList.dropWhile Char.isWhitespace).reverse.dropWhile Char.isWhitespace :=
        (List.takeWhile_append_dropWhile Char.isWhitespace _).symm
      have h3 := congrArg List.reverse h2
      rw [List.reverse_reverse, List.reverse_append] at h3
      conv_lhs => rw [h1, h3]
    · intro c hc
      exact List.mem_takeWhile_imp hc
    · intro c hc
      exact List.mem_takeWhile_imp (List.mem_reverse.mp hc)
  · intro c
    constructor
    · intro hc
      rw [hcore, List.head?_reverse] at hc
      have hnn : (s.toList.dropWhile Char.isWhitespace).reverse.dropWhile Char.isWhitespace
          ≠ [] := by
        intro hnil
        rw [hnil] at hc
        simp at hc
      rw [getLast?_dropWhile_of_ne_nil Char.isWhitespace _ hnn, List.getLast?_reverse] at hc
      exact head?_dropWhile_not Char.isWhitespace _ c hc
    · intro hc
      rw [hcore, List.getLast?_reverse] at hc
      exact head?_dropWhile_not Char.isWhitespace _ c hc

/-- C10 witness at a concrete string. -/
theorem c10_witness :
    prettyPrint (JsValue.vStr "  a b  ") = jsTrim "  a b  "
    ∧ (∃ pre post : List Char,
        ("  a b  ").toList = pre ++ ((jsTrim "  a b  ").toList ++ post)
        ∧ (∀ c ∈ pre, c.isWhitespace = true)
        ∧ (∀ c ∈ post, c.isWhitespace = true))
    ∧ (∀ c, ((jsTrim "  a b  ").toList.head? = some c → c.isWhitespace = false)
        ∧ ((jsTrim "  a b  ").toList.getLast? = some c → c.isWhitespace = false))
    ∧ prettyPrint (JsValue.vBool true) = jsToString (JsValue.vBool true) :=
  c10_string_display "  a b  " true

end Hectec
